import Mathlib

set_option maxHeartbeats 1000000

/-!
Verification development for the agent runtime core of the `openmanus-aligned`
repository.  The Python modules `app/core/events.py`, `app/core/planner.py`,
`app/core/datasource.py`, `app/core/context.py` and
`app/agent/manus_aligned.py` are shallowly embedded below: pure methods become
Lean functions, mutating methods become functions from the receiver record to
an updated record.  Wall-clock fields (`datetime.utcnow()` timestamps such as
`started_at`, `completed_at`, `created_at`, `updated_at`, `last_used`,
`last_updated`, `added_at`) are omitted from the records: they are opaque
nondeterministic inputs that no embedded operation reads.  Event timestamps,
which do flow into event ids and serialization, are kept as the ISO strings
they are rendered to.
-/

namespace Spec2Proof

/-- Python `sep.join(parts)`. -/
def pyJoin (sep : String) : List String → String
  | [] => ""
  | [a] => a
  | a :: b :: rest => a ++ sep ++ pyJoin sep (b :: rest)

/-- ASCII lowercasing of one character (`str.lower()`; the payloads and
lexemes involved are ASCII, so Unicode case folding is not modelled). -/
def lowerChar (c : Char) : Char :=
  if 65 ≤ c.toNat ∧ c.toNat ≤ 90 then Char.ofNat (c.toNat + 32) else c

/-- Python `s.lower()`. -/
def pyLower (s : String) : String :=
  String.mk (s.data.map lowerChar)

/-- Python `s[:n]` on a string (slicing counts code points). -/
def pyTake (s : String) (n : Nat) : String :=
  String.mk (s.data.take n)

/-- Python `s.startswith(pre)`. -/
def pyStartsWith (s pre : String) : Bool :=
  pre.data.isPrefixOf s.data

/-- Does `needle` occur as a contiguous sublist at some position of `hay`? -/
def listContainsAux (needle : List Char) : List Char → Bool
  | [] => false
  | h :: t => needle.isPrefixOf (h :: t) || listContainsAux needle t

/-- Python substring test `needle in hay`. -/
def strContains (hay needle : String) : Bool :=
  if needle = "" then true else listContainsAux needle.data hay.data

/-- Python dict assignment `d[k] = v` on an association list: an existing key
is updated in place (keeping its position), a new key is appended. -/
def dictSet {α : Type} (l : List (String × α)) (k : String) (v : α) : List (String × α) :=
  if l.any (fun kv => kv.1 == k) then
    l.map (fun kv => if kv.1 == k then (k, v) else kv)
  else l ++ [(k, v)]

/-- Python tail slice `l[-k:]` where `k` may be any integer: for `k > 0` the
last `k` elements, for `k = 0` the whole list (`l[-0:]` is `l[0:]`), and for
`k < 0` the slice `l[(-k):]`. -/
def pyTailSlice {α : Type} (l : List α) (k : Int) : List α :=
  if 0 < k then l.drop (l.length - k.toNat) else l.drop (-k).toNat

/-- Lowercase hexadecimal digit. -/
def hexDigit (n : Nat) : Char :=
  if n < 10 then Char.ofNat (48 + n) else Char.ofNat (87 + n % 16)

/-- Two lowercase hex digits of a byte. -/
def hex2 (n : Nat) : String :=
  String.mk [hexDigit (n / 16 % 16), hexDigit (n % 16)]

/-- Four lowercase hex digits of a 16-bit value. -/
def hex4 (n : Nat) : String :=
  String.mk [hexDigit (n / 4096 % 16), hexDigit (n / 256 % 16),
             hexDigit (n / 16 % 16), hexDigit (n % 16)]

/-- UTF-8 encoding of one code point, as byte values. -/
def utf8Bytes (c : Char) : List Nat :=
  let n := c.toNat
  if n < 128 then [n]
  else if n < 2048 then [192 + n / 64, 128 + n % 64]
  else if n < 65536 then [224 + n / 4096, 128 + n / 64 % 64, 128 + n % 64]
  else [240 + n / 262144, 128 + n / 4096 % 64, 128 + n / 64 % 64, 128 + n % 64]

/-- UTF-8 bytes of a string (Python `s.encode()`). -/
def strBytes (s : String) : List Nat :=
  (s.data.map utf8Bytes).flatten

/-- 32-bit right rotation on `Nat` values below `2 ^ 32`. -/
def rotr32 (x n : Nat) : Nat :=
  ((x >>> n) ^^^ (x <<< (32 - n))) % 4294967296

/-- SHA-256 round constants (the standard table, written in decimal). -/
def sha256K : List Nat :=
  [1116352408, 1899447441, 3049323471, 3921009573,
   961987163, 1508970993, 2453635748, 2870763221,
   3624381080, 310598401, 607225278, 1426881987,
   1925078388, 2162078206, 2614888103, 3248222580,
   3835390401, 4022224774, 264347078, 604807628,
   770255983, 1249150122, 1555081692, 1996064986,
   2554220882, 2821834349, 2952996808, 3210313671,
   3336571891, 3584528711, 113926993, 338241895,
   666307205, 773529912, 1294757372, 1396182291,
   1695183700, 1986661051, 2177026350, 2456956037,
   2730485921, 2820302411, 3259730800, 3345764771,
   3516065817, 3600352804, 4094571909, 275423344,
   430227734, 506948616, 659060556, 883997877,
   958139571, 1322822218, 1537002063, 1747873779,
   1955562222, 2024104815, 2227730452, 2361852424,
   2428436474, 2756734187, 3204031479, 3329325298]

/-- SHA-256 padding: append `0x80`, zeros, and the 64-bit big-endian bit length. -/
def shaPad (msg : List Nat) : List Nat :=
  let len := msg.length
  let zeros := (64 + 56 - (len + 1) % 64) % 64
  let bits := len * 8
  msg ++ [0x80] ++ List.replicate zeros 0 ++
    [bits / 2 ^ 56 % 256, bits / 2 ^ 48 % 256, bits / 2 ^ 40 % 256, bits / 2 ^ 32 % 256,
     bits / 2 ^ 24 % 256, bits / 2 ^ 16 % 256, bits / 2 ^ 8 % 256, bits % 256]

/-- Split a byte list into 64-byte chunks. -/
def chunks64 (l : List Nat) : List (List Nat) :=
  if l.isEmpty then [] else l.take 64 :: chunks64 (l.drop 64)
termination_by l.length
decreasing_by
  rename_i h
  rw [List.isEmpty_iff] at h
  have hl : 0 < l.length := List.length_pos.mpr h
  simp [List.length_drop]
  omega

/-- Big-endian 32-bit words of a 64-byte chunk. -/
def chunkWords (c : List Nat) : List Nat :=
  (List.range 16).map fun i =>
    c.getD (4 * i) 0 * 2 ^ 24 + c.getD (4 * i + 1) 0 * 2 ^ 16 +
    c.getD (4 * i + 2) 0 * 2 ^ 8 + c.getD (4 * i + 3) 0

/-- SHA-256 message schedule: extend 16 words to 64. -/
def shaSchedule (ws : List Nat) : Array Nat :=
  (List.range 48).foldl
    (fun a i =>
      let w15 := a.getD (i + 1) 0
      let w2 := a.getD (i + 14) 0
      let s0 := rotr32 w15 7 ^^^ rotr32 w15 18 ^^^ (w15 >>> 3)
      let s1 := rotr32 w2 17 ^^^ rotr32 w2 19 ^^^ (w2 >>> 10)
      a.push ((a.getD i 0 + s0 + a.getD (i + 9) 0 + s1) % 4294967296))
    ws.toArray

/-- One SHA-256 compression round. -/
def shaRound (st : Nat × Nat × Nat × Nat × Nat × Nat × Nat × Nat) (kw : Nat × Nat) :
    Nat × Nat × Nat × Nat × Nat × Nat × Nat × Nat :=
  let (a, b, c, d, e, f, g, h) := st
  let s1 := rotr32 e 6 ^^^ rotr32 e 11 ^^^ rotr32 e 25
  let ch := (e &&& f) ^^^ ((4294967295 - e) &&& g)
  let t1 := (h + s1 + ch + kw.1 + kw.2) % 4294967296
  let s0 := rotr32 a 2 ^^^ rotr32 a 13 ^^^ rotr32 a 22
  let mj := (a &&& b) ^^^ (a &&& c) ^^^ (b &&& c)
  let t2 := (s0 + mj) % 4294967296
  ((t1 + t2) % 4294967296, a, b, c, (d + t1) % 4294967296, e, f, g)

/-- Process one 64-byte chunk into the running hash state. -/
def shaChunk (hs : List Nat) (c : List Nat) : List Nat :=
  let w := shaSchedule (chunkWords c)
  let init := (hs.getD 0 0, hs.getD 1 0, hs.getD 2 0, hs.getD 3 0,
               hs.getD 4 0, hs.getD 5 0, hs.getD 6 0, hs.getD 7 0)
  let fin := (sha256K.zip w.toList).foldl shaRound init
  let (a, b, c', d, e, f, g, h) := fin
  [(hs.getD 0 0 + a) % 4294967296, (hs.getD 1 0 + b) % 4294967296,
   (hs.getD 2 0 + c') % 4294967296, (hs.getD 3 0 + d) % 4294967296,
   (hs.getD 4 0 + e) % 4294967296, (hs.getD 5 0 + f) % 4294967296,
   (hs.getD 6 0 + g) % 4294967296, (hs.getD 7 0 + h) % 4294967296]

/-- SHA-256 of a byte list, as 32 bytes. -/
def sha256 (msg : List Nat) : List Nat :=
  let hs := (chunks64 (shaPad msg)).foldl shaChunk
    [1779033703, 3144134277, 1013904242, 2773480762, 1359893119, 2600822924, 528734635, 1541459225]
  hs.flatMap fun w => [w / 2 ^ 24 % 256, w / 2 ^ 16 % 256, w / 2 ^ 8 % 256, w % 256]

/-- `hashlib.sha256(s.encode()).hexdigest()[:16]` as used for event ids and
the context-engine prefix hash. -/
def sha256hex16 (s : String) : String :=
  pyTake (String.join ((sha256 (strBytes s)).map hex2)) 16

/-- JSON values as produced by the repository's `to_dict` methods.  Numbers in
those payloads are Python ints, so `num` carries an `Int`. -/
inductive Json where
  | null : Json
  | bool (b : Bool) : Json
  | num (n : Int) : Json
  | str (s : String) : Json
  | arr (xs : List Json) : Json
  | obj (fields : List (String × Json)) : Json
deriving Repr

/-- Escape one character the way `json.dumps` (with its default
`ensure_ascii=True`) renders string contents. -/
def escChar (c : Char) : String :=
  if c = '"' then "\\\""
  else if c = '\\' then "\\\\"
  else if c = '\n' then "\\n"
  else if c = '\t' then "\\t"
  else if c = '\r' then "\\r"
  else if c.toNat = 8 then "\\b"
  else if c.toNat = 12 then "\\f"
  else if c.toNat < 32 then "\\u" ++ hex4 c.toNat
  else if c.toNat < 127 then String.mk [c]
  else if c.toNat < 65536 then "\\u" ++ hex4 c.toNat
  else
    let v := c.toNat - 65536
    "\\u" ++ hex4 (55296 + v / 1024) ++ "\\u" ++ hex4 (56320 + v % 1024)

/-- A JSON string literal. -/
def escString (s : String) : String :=
  "\"" ++ String.join (s.data.map escChar) ++ "\""

/-- Stable insertion of a rendered key/value pair into a key-sorted list
(the `sort_keys=True` ordering of `json.dumps`). -/
def insertKey (x : String × String) : List (String × String) → List (String × String)
  | [] => [x]
  | y :: ys => if y.1 < x.1 then y :: insertKey x ys else x :: y :: ys

/-- Sort rendered key/value pairs by key (stable). -/
def sortPairs (l : List (String × String)) : List (String × String) :=
  l.foldr insertKey []

mutual

/-- `json.dumps(j, sort_keys=True, separators=(isep, ksep))`. -/
def Json.dumpsWith (isep ksep : String) : Json → String
  | .null => "null"
  | .bool b => if b then "true" else "false"
  | .num n => toString n
  | .str s => escString s
  | .arr xs => "[" ++ pyJoin isep (dumpsArr isep ksep xs) ++ "]"
  | .obj fs =>
      "\x7b" ++
        pyJoin isep ((sortPairs (dumpsFields isep ksep fs)).map
          (fun p => escString p.1 ++ ksep ++ p.2)) ++
      "\x7d"

/-- Render each element of a JSON array. -/
def dumpsArr (isep ksep : String) : List Json → List String
  | [] => []
  | x :: xs => Json.dumpsWith isep ksep x :: dumpsArr isep ksep xs

/-- Render each value of a JSON object, keeping keys for sorting. -/
def dumpsFields (isep ksep : String) : List (String × Json) → List (String × String)
  | [] => []
  | (k, v) :: fs => (k, Json.dumpsWith isep ksep v) :: dumpsFields isep ksep fs

end

/-- `json.dumps(j, sort_keys=True, separators=(',', ':'))` — the canonical
minimal-separator encoding used by `EventStream.serialize`. -/
def Json.dumpsMin (j : Json) : String := Json.dumpsWith "," ":" j

/-- `json.dumps(j, sort_keys=True)` with Python's default separators
`(', ', ': ')`, as used inside the content hashes. -/
def Json.dumpsDefault (j : Json) : String := Json.dumpsWith ", " ": " j

/-! ### `app/core/events.py` -/

/-- The seven event kinds of `EventType`. -/
inductive EventType where
  | message | action | observation | plan | knowledge | datasource | system
deriving DecidableEq, Repr

/-- The `.value` string of each `EventType` member, which is also how the kind
is rendered into the id pre-image and into `to_dict`. -/
def EventType.value : EventType → String
  | .message => "message"
  | .action => "action"
  | .observation => "observation"
  | .plan => "plan"
  | .knowledge => "knowledge"
  | .datasource => "datasource"
  | .system => "system"

/-- One constructor per `Event` subclass.  `ts` is the ISO rendering of the
`timestamp` field (`timestamp.isoformat()`), `md` the `metadata` dict.  The
`id` field is not stored: at construction the source always computes it from
the content (`_generate_id`), so it is the derived function `Event.genId`. -/
inductive Event where
  | message (ts : String) (md : List (String × Json))
      (role : String) (content : String) (base64_image : Option String)
  | action (ts : String) (md : List (String × Json))
      (tool_name : String) (tool_input : List (String × Json)) (tool_call_id : String)
  | observation (ts : String) (md : List (String × Json))
      (tool_name : String) (tool_call_id : String) (output : String)
      (error : Option String) (base64_image : Option String)
  | plan (ts : String) (md : List (String × Json))
      (plan_id : String) (title : String) (steps : List String)
      (step_statuses : List String) (current_step_index : Nat) (is_complete : Bool)
  | knowledge (ts : String) (md : List (String × Json))
      (category : String) (scope : String) (content : String)
      (conditions : List String) (priority : Int)
  | datasource (ts : String) (md : List (String × Json))
      (source_id : String) (name : String) (description : String)
      (endpoint : String) (auth_method : Option String)
      (documentation : String) (example_usage : String) (priority : Int)
  | system (ts : String) (md : List (String × Json))
      (event_name : String) (data : List (String × Json))

/-- The `type` of an event. -/
def Event.etype : Event → EventType
  | .message .. => .message
  | .action .. => .action
  | .observation .. => .observation
  | .plan .. => .plan
  | .knowledge .. => .knowledge
  | .datasource .. => .datasource
  | .system .. => .system

/-- The ISO timestamp of an event. -/
def Event.ts : Event → String
  | .message t .. => t
  | .action t .. => t
  | .observation t .. => t
  | .plan t .. => t
  | .knowledge t .. => t
  | .datasource t .. => t
  | .system t .. => t

/-- The metadata dict of an event. -/
def Event.md : Event → List (String × Json)
  | .message _ m .. => m
  | .action _ m .. => m
  | .observation _ m .. => m
  | .plan _ m .. => m
  | .knowledge _ m .. => m
  | .datasource _ m .. => m
  | .system _ m .. => m

/-- The per-subclass `_content_hash` strings. -/
def Event.contentHash : Event → String
  | .message _ _ role content _ => role ++ ":" ++ content
  | .action _ _ tn ti _ => tn ++ ":" ++ Json.dumpsDefault (Json.obj ti)
  | .observation _ _ tn _ out err _ => tn ++ ":" ++ out ++ ":" ++ err.getD ""
  | .plan _ _ pid title steps _ _ _ =>
      let n := steps.length
      pid ++ ":" ++ title ++ ":" ++ toString n
  | .knowledge _ _ cat scope content _ _ => cat ++ ":" ++ scope ++ ":" ++ pyTake content 50
  | .datasource _ _ sid name _ _ _ _ _ _ => sid ++ ":" ++ name
  | .system _ _ en data => en ++ ":" ++ Json.dumpsDefault (Json.obj data)

/-- The pre-image string hashed by `Event._generate_id`:
`f"{self.type}:{self.timestamp.isoformat()}:{self._content_hash()}"`. -/
def Event.idContent (e : Event) : String :=
  e.etype.value ++ ":" ++ e.ts ++ ":" ++ e.contentHash

/-- `Event._generate_id`: first 16 hex chars of the SHA-256 of the content. -/
def Event.genId (e : Event) : String :=
  sha256hex16 e.idContent

/-- Python truthiness of an `Optional[str]`: `None` and `""` are falsy. -/
def optTruthy : Option String → Bool
  | none => false
  | some s => s ≠ ""

/-- The `to_dict` of each event subclass (base fields first, then the
subclass `update`; key order is irrelevant to `serialize`, which sorts). -/
def Event.toDict (e : Event) : Json :=
  let base : List (String × Json) :=
    [("id", .str e.genId), ("type", .str e.etype.value),
     ("timestamp", .str e.ts), ("metadata", .obj e.md)]
  match e with
  | .message _ _ role content img =>
      .obj (base ++ [("role", .str role), ("content", .str content)] ++
        (if optTruthy img then [("base64_image", .str (img.getD ""))] else []))
  | .action _ _ tn ti tcid =>
      .obj (base ++ [("tool_name", .str tn), ("tool_input", .obj ti), ("tool_call_id", .str tcid)])
  | .observation _ _ tn tcid out err img =>
      .obj (base ++ [("tool_name", .str tn), ("tool_call_id", .str tcid), ("output", .str out)] ++
        (if optTruthy err then [("error", .str (err.getD ""))] else []) ++
        (if optTruthy img then [("base64_image", .str (img.getD ""))] else []))
  | .plan _ _ pid title steps stats idx compl =>
      .obj (base ++ [("plan_id", .str pid), ("title", .str title),
        ("steps", .arr (steps.map .str)), ("step_statuses", .arr (stats.map .str)),
        ("current_step_index", .num idx), ("is_complete", .bool compl)])
  | .knowledge _ _ cat scope content conds prio =>
      .obj (base ++ [("category", .str cat), ("scope", .str scope), ("content", .str content),
        ("conditions", .arr (conds.map .str)), ("priority", .num prio)])
  | .datasource _ _ sid name desc ep am doc exu prio =>
      .obj (base ++ [("source_id", .str sid), ("name", .str name), ("description", .str desc),
        ("endpoint", .str ep),
        ("auth_method", match am with | some s => .str s | none => .null),
        ("documentation", .str doc), ("example_usage", .str exu), ("priority", .num prio)])
  | .system _ _ en data =>
      .obj (base ++ [("event_name", .str en), ("data", .obj data)])

/-- Is the kind preserved by the soft-cap eviction (`PLAN` or `SYSTEM`)? -/
def Event.isPreserved (e : Event) : Bool :=
  e.etype == .plan || e.etype == .system

/-- `EventStream`: the ordered event list with its soft cap. -/
structure EventStream where
  events : List Event := []
  max_events : Nat := 1000

/-- `EventStream.append`: append, then if the cap is exceeded rebuild the list
as the preserved (Plan/System) events followed by the Python tail slice
`other[-keep_count:]` of the remaining ones. -/
def EventStream.append (s : EventStream) (e : Event) : EventStream :=
  let events := s.events ++ [e]
  if s.max_events < events.length then
    let preserved := events.filter fun x => x.isPreserved
    let other := events.filter fun x => !x.isPreserved
    let keep : Int := (s.max_events : Int) - (preserved.length : Int)
    { s with events := preserved ++ pyTailSlice other keep }
  else
    { s with events := events }

/-- `EventStream.serialize`: `json.dumps([e.to_dict() ...], sort_keys=True,
separators=(',', ':'))`. -/
def EventStream.serialize (s : EventStream) : String :=
  Json.dumpsMin (Json.arr (s.events.map Event.toDict))

/-- A stream built by appending a history of events to a fresh `EventStream()`
(default cap 1000). -/
def buildStream (hist : List Event) : EventStream :=
  hist.foldl EventStream.append { events := [], max_events := 1000 }

/-! ### `app/core/planner.py` -/

/-- `StepStatus`. -/
inductive StepStatus where
  | pending | in_progress | completed | blocked | skipped
deriving DecidableEq, Repr

/-- `PlanStep` (wall-clock fields omitted, see the header note). -/
structure PlanStep where
  index : Nat
  description : String
  status : StepStatus := .pending
  notes : String := ""
  dependencies : List Nat := []
deriving DecidableEq, Repr

/-- `Plan` (timestamps omitted; `id` is the uuid prefix, threaded as data). -/
structure Plan where
  id : String
  title : String
  objective : String
  steps : List PlanStep := []
  current_step_index : Nat := 0
  is_complete : Bool := false
deriving DecidableEq, Repr

/-- `Plan.get_current_step`. -/
def Plan.getCurrentStep (p : Plan) : Option PlanStep :=
  p.steps[p.current_step_index]?

/-- `Plan.advance`: completes the current step unless its status is already
`COMPLETED` (a blocked or skipped step is also overwritten), increments the
index, then either finishes the plan or starts the next step and returns it. -/
def Plan.advance (p : Plan) : Plan × Option PlanStep :=
  let p1 :=
    match p.steps[p.current_step_index]? with
    | some cur =>
        if cur.status = StepStatus.completed then p
        else { p with steps := p.steps.set p.current_step_index { cur with status := .completed } }
    | none => p
  let p2 := { p1 with current_step_index := p1.current_step_index + 1 }
  match p2.steps[p2.current_step_index]? with
  | some nxt =>
      let nxt' := { nxt with status := .in_progress }
      ({ p2 with steps := p2.steps.set p2.current_step_index nxt' }, some nxt')
  | none => ({ p2 with is_complete := true }, none)

/-- The three default step descriptions used by `_parse_plan_response` when
no numbered step could be parsed from the LLM reply. -/
def defaultStepDescs : List String :=
  ["Analyze the request requirements", "Execute the main task", "Verify the results"]

/-- The plan built by `Planner._parse_plan_response` once the reply has been
parsed to a title, an objective and a list of step descriptions: every step
starts `PENDING` (`Plan.add_step`), then `steps[0].start()` marks the first
step `IN_PROGRESS`.  The LLM reply text itself is an external input; its
parsed fields are the parameters here. -/
def parsedPlan (pid title objective : String) (descs : List String) : Plan :=
  let ds := if descs.isEmpty then defaultStepDescs else descs
  let steps := ds.enum.map fun d => PlanStep.mk d.1 d.2 StepStatus.pending "" []
  let steps :=
    match steps with
    | [] => []
    | s0 :: rest => { s0 with status := .in_progress } :: rest
  { id := pid, title := title, objective := objective, steps := steps,
    current_step_index := 0, is_complete := false }

/-- `Planner.update_step_status` on the current plan: in-range indices get the
status overwritten (and notes when non-empty); out-of-range is a no-op. -/
def Plan.updateStepStatus (p : Plan) (i : Nat) (status : StepStatus) (notes : String) : Plan :=
  match p.steps[i]? with
  | some step =>
      let step := { step with status := status }
      let step := if notes ≠ "" then { step with notes := notes } else step
      { p with steps := p.steps.set i step }
  | none => p

/-- `Planner.replan` restricted to its effect on the current plan: the old
plan is archived (`is_complete = True`, aliased into the history) and the
parse of the new LLM reply becomes current. -/
def Plan.replanTo (pid title objective : String) (descs : List String) : Plan :=
  parsedPlan pid title objective descs

/-- The failure lexemes of `Planner.should_replan`. -/
def errorIndicators : List String :=
  ["error", "failed", "unable", "cannot", "blocked"]

/-- The `Planner` fields read by `should_replan`. -/
structure PlannerM where
  replan_on_error : Bool := true
  current_plan : Option Plan := none

/-- `Planner.should_replan`. -/
def PlannerM.shouldReplan (pl : PlannerM) (observation : String) : Bool :=
  if !pl.replan_on_error then false
  else if pl.current_plan.isNone then false
  else errorIndicators.any fun ind => strContains (pyLower observation) ind

/-- The operations of the Plan-Store transition system acting on the current
plan (`Planner.advance_plan`, `Planner.update_step_status`,
`Planner.replan`). -/
inductive POp where
  | advance : POp
  | update (i : Nat) (status : StepStatus) (notes : String) : POp
  | replan (pid title objective : String) (descs : List String) : POp

/-- Apply one operation to the current plan. -/
def applyPOp (p : Plan) : POp → Plan
  | .advance => (p.advance).1
  | .update i st notes => p.updateStepStatus i st notes
  | .replan pid title objective descs => Plan.replanTo pid title objective descs

/-- The current plan after `create_plan` (parsed to `descs`) followed by a
sequence of operations. -/
def runPOps (pid title objective : String) (descs : List String) (ops : List POp) : Plan :=
  ops.foldl applyPOp (parsedPlan pid title objective descs)

/-- Number of `IN_PROGRESS` steps of a plan. -/
def Plan.countInProgress (p : Plan) : Nat :=
  (p.steps.filter fun s => s.status == .in_progress).length

/-! ### `app/core/datasource.py` -/

/-- The parts of `ApiEndpoint` read by `matches_query`. -/
structure ApiEndpoint where
  path : String
  method : String := "GET"
  description : String := ""
deriving DecidableEq, Repr

/-- The parts of `Datasource` read by `matches_query` and `find_relevant`
(`last_used` is wall clock and omitted). -/
structure Datasource where
  id : String
  name : String
  description : String := ""
  base_url : String := ""
  auth_method : String := "none"
  endpoints : List ApiEndpoint := []
  tags : List String := []
  priority : Int := 1
  enabled : Bool := true
  usage_count : Nat := 0
deriving DecidableEq, Repr

/-- `Datasource.matches_query`: note the name test is bidirectional, the tag
test asks for the tag inside the query, and the endpoint test asks for the
query inside the description — all lowercased. -/
def Datasource.matchesQuery (d : Datasource) (query : String) : Bool :=
  let ql := pyLower query
  strContains ql (pyLower d.name) || strContains (pyLower d.name) ql ||
  d.tags.any (fun tag => strContains ql (pyLower tag)) ||
  d.endpoints.any (fun ep => strContains (pyLower ep.description) ql)

/-- Stable insertion for the descending-priority sort: a source is placed
before the first source of smaller-or-equal priority that was inserted
later, reproducing the stable `list.sort(key=priority, reverse=True)`. -/
def insertDesc (x : Datasource) : List Datasource → List Datasource
  | [] => [x]
  | y :: ys => if y.priority ≤ x.priority then x :: y :: ys else y :: insertDesc x ys

/-- The stable descending-priority sort (`relevant.sort(key=..., reverse=True)`;
Python's sort is stable, and the unique stable sort is insertion sort). -/
def sortByPriorityDesc (l : List Datasource) : List Datasource :=
  l.foldr insertDesc []

/-- `DatasourceModule.sources` is a dict keyed by source id; insertion order
is the registration order. -/
structure DatasourceModule where
  sources : List (String × Datasource) := []

/-- `DatasourceModule.register`. -/
def DatasourceModule.register (m : DatasourceModule) (d : Datasource) : DatasourceModule :=
  { m with sources := dictSet m.sources d.id d }

/-- `DatasourceModule.find_relevant`: filter the enabled matching sources in
registration order, sort by descending priority only, truncate to `limit`. -/
def DatasourceModule.findRelevant (m : DatasourceModule) (query : String) (limit : Nat) :
    List Datasource :=
  let relevant := (m.sources.map Prod.snd).filter fun s => s.enabled && s.matchesQuery query
  (sortByPriorityDesc relevant).take limit

/-! ### `app/core/context.py` -/

/-- `ToolState`. -/
inductive ToolState where
  | available | masked | hidden
deriving DecidableEq, Repr

/-- `ToolMask`. -/
structure ToolMask where
  tool_name : String
  state : ToolState := .available
  mask_reason : String := ""
  conditions : List String := []
  priority : Nat := 1
deriving DecidableEq, Repr

/-- One entry of `TodoRecitation.items` / `completed_items` (`added_at` and
`completed_at` are wall clock and omitted). -/
structure TodoItem where
  description : String
  priority : Nat := 1
  status : String := "pending"
deriving DecidableEq, Repr

/-- `TodoRecitation` (`last_updated` is wall clock and omitted). -/
structure TodoRecitation where
  title : String := "Task Progress"
  items : List TodoItem := []
  completed_items : List TodoItem := []
  notes : List String := []
  update_frequency : Nat := 3
deriving DecidableEq, Repr

/-- Round-half-even of `100 * c / t` percent, modelling the CPython float
formatting `f"{pct:.0f}"` on the exact rational value. -/
def pctRound (c t : Nat) : Nat :=
  let q := 100 * c / t
  let r := 100 * c % t
  if 2 * r < t then q else if t < 2 * r then q + 1 else if q % 2 = 0 then q else q + 1

/-- `TodoRecitation.to_recitation_string`: the `[CURRENT PROGRESS]` header is
always emitted; active tasks and the completion fraction follow when present. -/
def TodoRecitation.recitationString (td : TodoRecitation) : String :=
  let activeParts : List String :=
    if td.items.isEmpty then []
    else
      let n := td.items.length
      s!"Active: {n} tasks remaining" ::
        (td.items.take 3).enum.map fun p =>
          let j := p.1 + 1
          let d := p.2.description
          s!"  {j}. {d}"
  let total := td.items.length + td.completed_items.length
  let progressParts : List String :=
    if 0 < total then
      let done := td.completed_items.length
      let pr := pctRound done total
      [s!"Progress: {done}/{total} ({pr}%)"]
    else []
  pyJoin "\n" ("[CURRENT PROGRESS]" :: (activeParts ++ progressParts))

/-- One retained error of `ErrorRetention.errors` (timestamp omitted). -/
structure ErrorRecord where
  tool_name : String
  error_message : String
  input_args : List (String × Json) := []
  context : String := ""

/-- `ErrorRetention`. -/
structure ErrorRetention where
  errors : List ErrorRecord := []
  max_retained : Nat := 10
  summary_threshold : Nat := 5

/-- `ErrorRetention.record_error`: append, then trim to the newest
`max_retained`. -/
def ErrorRetention.recordError (er : ErrorRetention) (tool_name error_message : String)
    (input_args : List (String × Json)) (context : String) : ErrorRetention :=
  let errors := er.errors ++ [⟨tool_name, error_message, input_args, context⟩]
  if er.max_retained < errors.length then
    { er with errors := pyTailSlice errors (er.max_retained : Int) }
  else
    { er with errors := errors }

/-- `ErrorRetention.to_context_string`. -/
def ErrorRetention.contextString (er : ErrorRetention) : String :=
  if er.errors.isEmpty then ""
  else
    pyJoin "\n" ("[PREVIOUS ERRORS - Avoid repeating these mistakes:]" ::
      (pyTailSlice er.errors (er.summary_threshold : Int)).map fun r =>
        let tn := r.tool_name
        let m := r.error_message
        s!"- {tn}: {m}")

/-- `SerializationVariation`, reduced to the state read by `build_context`
(`add_variation`); the `templates` / `get_template` rotation feeds only
`serialize_action`, which no embedded caller reaches. -/
structure SerializationVariation where
  variation_seed : Nat := 0

/-- `SerializationVariation.add_variation`: pick one of the three transforms
by `variation_seed % 3`, then bump the seed. -/
def SerializationVariation.addVariation (sv : SerializationVariation) (text : String) :
    SerializationVariation × String :=
  let f := sv.variation_seed % 3
  let out :=
    if f = 0 then text
    else if f = 1 then text.replace ":" " -"
    else text.replace "\n\n" "\n"
  ({ sv with variation_seed := sv.variation_seed + 1 }, out)

/-- `ContextEngine` (the `tool_prefixes` map feeds only
`get_tool_with_prefix`, which no claim touches; `sysPre`/`preHash` model the
source fields `system_prefix`/`prefix_hash`). -/
structure ContextEngine where
  sysPre : String := ""
  preHash : String := ""
  tool_masks : List (String × ToolMask) := []
  todo : TodoRecitation := {}
  recitation_enabled : Bool := true
  error_retention : ErrorRetention := {}
  retain_errors : Bool := true
  serialization : SerializationVariation := {}
  vary_serialization : Bool := true
  context_version : Nat := 0
  step_count : Nat := 0

/-- `ContextEngine.set_stable_prefix`. -/
def ContextEngine.setStablePre (e : ContextEngine) (p : String) : ContextEngine :=
  { e with sysPre := p, preHash := sha256hex16 p }

/-- `ContextEngine.check_prefix_stability`. -/
def ContextEngine.checkPreStability (e : ContextEngine) (newPre : String) : Bool :=
  sha256hex16 newPre == e.preHash

/-- `ContextEngine.mask_tool`. -/
def ContextEngine.maskTool (e : ContextEngine) (tool_name reason : String)
    (conditions : List String) : ContextEngine :=
  let mask : ToolMask :=
    { tool_name := tool_name, state := .masked, mask_reason := reason,
      conditions := conditions, priority := 1 }
  { e with tool_masks := dictSet e.tool_masks tool_name mask }

/-- `ContextEngine.unmask_tool`. -/
def ContextEngine.unmaskTool (e : ContextEngine) (tool_name : String) : ContextEngine :=
  { e with tool_masks := e.tool_masks.map fun kv =>
      if kv.1 == tool_name then (kv.1, { kv.2 with state := .available }) else kv }

/-- `ContextEngine.get_masked_tools_context`. -/
def ContextEngine.maskedToolsContext (e : ContextEngine) : String :=
  let masked := (e.tool_masks.map Prod.snd).filter fun m => m.state == .masked
  if masked.isEmpty then ""
  else
    pyJoin "\n" ("[UNAVAILABLE TOOLS - Do not attempt to use:]" ::
      masked.map fun m =>
        let tn := m.tool_name
        let rs := if m.mask_reason ≠ "" then " (" ++ m.mask_reason ++ ")" else ""
        s!"- {tn}{rs}")

/-- `ContextEngine.get_recitation_context`. -/
def ContextEngine.recitationContext (e : ContextEngine) : String :=
  if !e.recitation_enabled then "" else e.todo.recitationString

/-- `ContextEngine.should_recite`. -/
def ContextEngine.shouldRecite (e : ContextEngine) : Bool :=
  e.step_count % e.todo.update_frequency == 0

/-- `ContextEngine.get_error_context`. -/
def ContextEngine.errorContext (e : ContextEngine) : String :=
  if !e.retain_errors then "" else e.error_retention.contextString

/-- `ContextEngine.increment_step`. -/
def ContextEngine.incrementStep (e : ContextEngine) : ContextEngine :=
  { e with step_count := e.step_count + 1, context_version := e.context_version + 1 }

/-- Does this event dict carry `"type": "observation"`? -/
def isObservationDict (j : Json) : Bool :=
  match j with
  | .obj fs =>
      match (fs.find? fun kv => kv.1 == "type").map Prod.snd with
      | some (.str t) => t == "observation"
      | _ => false
  | _ => false

/-- `event.get("output", "")` as a string (the source immediately applies
string transforms, so only string payloads occur). -/
def outputField (j : Json) : String :=
  match j with
  | .obj fs =>
      match (fs.find? fun kv => kv.1 == "output").map Prod.snd with
      | some (.str s) => s
      | _ => ""
  | _ => ""

/-- `event["output"] = v` on an event dict. -/
def setOutputField (j : Json) (v : String) : Json :=
  match j with
  | .obj fs => .obj (dictSet fs "output" (.str v))
  | _ => j

/-- The serialization-variation pass of `build_context` over the base
events, threading the variation seed. -/
def processEvents (sv : SerializationVariation) (vary : Bool) :
    List Json → SerializationVariation × List Json
  | [] => (sv, [])
  | ev :: rest =>
      let step :=
        if vary && isObservationDict ev then
          let r := sv.addVariation (outputField ev)
          (r.1, setOutputField ev r.2)
        else (sv, ev)
      let tail := processEvents step.1 vary rest
      (tail.1, step.2 :: tail.2)

/-- The value returned by `build_context`, plus the updated engine. -/
structure BuildResult where
  engine : ContextEngine
  preCtx : String
  dyn : List String
  processed : List Json

/-- `ContextEngine.build_context`: bumps the step counter, assembles the
prefix as `"\n\n".join(filter(None, [system_prefix, masked-tools-block]))`,
collects the dynamic recitation/error blocks, and applies serialization
variation to observation events. -/
def ContextEngine.buildContext (e : ContextEngine) (base_events : List Json)
    (include_todo include_errors include_tool_masks : Bool) : BuildResult :=
  let e := { e with step_count := e.step_count + 1 }
  let preParts : List String :=
    [e.sysPre] ++
      (if include_tool_masks then
        (if e.maskedToolsContext ≠ "" then [e.maskedToolsContext] else [])
      else [])
  let preCtx := pyJoin "\n\n" (preParts.filter fun s => s ≠ "")
  let dyn : List String :=
    (if include_todo && e.shouldRecite then
      (if e.recitationContext ≠ "" then [e.recitationContext] else [])
     else []) ++
    (if include_errors then
      (if e.errorContext ≠ "" then [e.errorContext] else [])
     else [])
  let pr := processEvents e.serialization e.vary_serialization base_events
  { engine := { e with serialization := pr.1 }, preCtx := preCtx, dyn := dyn, processed := pr.2 }

/-! ### `app/agent/manus_aligned.py` -/

/-- The Observation event appended by `ManusAligned.act` for one tool call:
`is_error = result.startswith("Error:")`, `output` is the full result on
success and `""` on failure, `error` is the full result on failure.  The
event is appended BEFORE the `result[:max_observe]` truncation. -/
def actObservationEvent (ts tool_name tool_call_id result : String) : Event :=
  let isErr := pyStartsWith result "Error:"
  .observation ts [] tool_name tool_call_id
    (if isErr then "" else result)
    (if isErr then some result else none)
    none

/-- The per-call result string collected by `act` for its return value:
`result[:self.max_observe]` when `max_observe` is truthy. -/
def actReturned (max_observe : Nat) (result : String) : String :=
  if max_observe = 0 then result else pyTake result max_observe

/-- The `output` payload of an observation event (`""` for other kinds). -/
def Event.obsOutput : Event → String
  | .observation _ _ _ _ out _ _ => out
  | _ => ""

/-- The `error` payload of an observation event. -/
def Event.obsError : Event → Option String
  | .observation _ _ _ _ _ err _ => err
  | _ => none

/-- The context-engineering part of one `ManusAligned.think` call, for a run
without a current plan (the todo refresh under `should_recite` is skipped)
and without recent browser use (the browser prompt override is skipped):
`increment_step`, then `build_context` (whose returned pair is not used for
the prompt), then the unconditional recitation injection and the masked-tools
injection into `next_step_prompt`.  Returns the engine, the prompt sent with
this step, and the dynamic blocks `build_context` produced. -/
def thinkStep (e : ContextEngine) (base_events : List Json) (orig : String) :
    ContextEngine × String × List String :=
  let e1 := e.incrementStep
  let br := e1.buildContext base_events true true true
  let e2 := br.engine
  let rc := e2.recitationContext
  let p1 := if rc ≠ "" then rc ++ "\n\n" ++ orig else orig
  let mk := e2.maskedToolsContext
  let p2 := if mk ≠ "" then mk ++ "\n\n" ++ p1 else p1
  (e2, p2, br.dyn)

/-- `k` successive think steps from an initial engine, all with an empty
base-event list and the same base `next_step_prompt`. -/
def runThink (e0 : ContextEngine) (orig : String) : Nat → ContextEngine × String × List String
  | 0 => (e0, orig, [])
  | k + 1 => thinkStep (runThink e0 orig k).1 [] orig

/-! ### Derived predicates and concrete instances used in the theorems -/

/-- `plan_id` of a Plan event. -/
def Event.planId : Event → String
  | .plan _ _ pid .. => pid
  | _ => ""

/-- `title` of a Plan event. -/
def Event.planTitle : Event → String
  | .plan _ _ _ t .. => t
  | _ => ""

/-- `steps` of a Plan event. -/
def Event.planSteps : Event → List String
  | .plan _ _ _ _ s .. => s
  | _ => []

/-- `step_statuses` of a Plan event. -/
def Event.planStatuses : Event → List String
  | .plan _ _ _ _ _ st .. => st
  | _ => []

/-- `current_step_index` of a Plan event. -/
def Event.planIndex : Event → Nat
  | .plan _ _ _ _ _ _ i _ => i
  | _ => 0

/-- `is_complete` of a Plan event. -/
def Event.planComplete : Event → Bool
  | .plan _ _ _ _ _ _ _ c => c
  | _ => false

/-- The single-in-progress invariant: every `IN_PROGRESS` step sits at the
current index. -/
def invSingle (p : Plan) : Prop :=
  ∀ j s, p.steps[j]? = some s → s.status = StepStatus.in_progress → j = p.current_step_index

/-- Operations that never write `IN_PROGRESS` through `update_step_status`. -/
def POp.allowedB : POp → Bool
  | .update _ st _ => st != .in_progress
  | _ => true

/-- Two Plan events identical except for step statuses, index and flag. -/
def planEvA : Event :=
  .plan "2024-01-01T00:00:00" [] "p1" "Demo plan" ["step a", "step b"]
    ["pending", "pending"] 0 false

/-- Companion of `planEvA` with advanced statuses. -/
def planEvB : Event :=
  .plan "2024-01-01T00:00:00" [] "p1" "Demo plan" ["step a", "step b"]
    ["completed", "in_progress"] 1 true

/-- Message events for the eviction scenario. -/
def msgEv (ts content : String) : Event := .message ts [] "user" content none

/-- A small stream at its cap, with a Plan event in third position. -/
def strmC2 : EventStream :=
  { events := [msgEv "t0" "m0", msgEv "t1" "m1",
               .plan "t2" [] "pl" "T" ["a"] ["pending"] 0 false],
    max_events := 3 }

/-- A one-step plan whose only step was skipped. -/
def skipPlan : Plan :=
  { id := "p", title := "t", objective := "o",
    steps := [{ index := 0, description := "s", status := .skipped }] }

/-- A two-step plan at index 0, both steps pending except the started first. -/
def c4plan : Plan := parsedPlan "p4" "t4" "o4" ["a", "b"]

/-- A plan with no steps. -/
def emptyPlan : Plan := { id := "p0", title := "t0", objective := "o0" }

/-- Two enabled matching datasources with equal priority and different usage
counts, registered `a` before `b`. -/
def dsA : Datasource := { id := "a", name := "Alpha", tags := ["x"], priority := 5, usage_count := 0 }

/-- See `dsA`. -/
def dsB : Datasource := { id := "b", name := "Beta", tags := ["x"], priority := 5, usage_count := 7 }

/-- The module holding `dsA` then `dsB`. -/
def dsModAB : DatasourceModule := (DatasourceModule.mk []).register dsA |>.register dsB

/-- A context engine with a non-empty stable system prompt and no masks. -/
def engineC1 : ContextEngine := { sysPre := "SYS" }

/-- A fresh context engine with one pending todo item (default
`update_frequency = 3`, recitation enabled). -/
def engineC6 : ContextEngine := { todo := { items := [{ description := "write code" }] } }

/-- A planner with `replan_on_error` set but no current plan. -/
def plannerNoPlan : PlannerM := { replan_on_error := true, current_plan := none }

/-- A tool result longer than the default `max_observe = 10000`. -/
def longOut : String := String.mk (List.replicate 10001 'a')

/-- A tiny append history for the serialization witness. -/
def evHi : Event := .message "t" [] "user" "hi" none

/-! ### Helper lemmas -/

theorem pyJoin_pair (sep a b : String) : pyJoin sep [a, b] = a ++ sep ++ b := rfl

theorem pyJoin_cons_ex (sep a : String) (t : List String) :
    ∃ z, pyJoin sep (a :: t) = a ++ z := by
  cases t with
  | nil => exact ⟨"", by simp [pyJoin]⟩
  | cons b r => exact ⟨sep ++ pyJoin sep (b :: r), by simp [pyJoin, String.append_assoc]⟩

theorem eq_empty_of_length_zero {a : String} (h : a.length = 0) : a = "" := by
  cases a with
  | mk data =>
    have hd : data = [] := List.length_eq_zero.mp h
    simp [hd]

theorem append_ne_empty_left (a z : String) (h : a ≠ "") : a ++ z ≠ "" := by
  intro hc
  apply h
  have hlen := congrArg String.length hc
  rw [String.length_append, show ("" : String).length = 0 from rfl] at hlen
  exact eq_empty_of_length_zero (by omega)

theorem mem_map_snd_dictSet {α : Type} (l : List (String × α)) (k : String) (v : α) :
    v ∈ (dictSet l k v).map Prod.snd := by
  unfold dictSet
  by_cases h : l.any (fun kv => kv.1 == k)
  · simp only [h, if_true]
    rw [List.any_eq_true] at h
    obtain ⟨kv, hkv, hk⟩ := h
    refine List.mem_map.mpr ⟨(k, v), List.mem_map.mpr ⟨kv, hkv, by simp [hk]⟩, rfl⟩
  · simp only [h, if_false]
    simp

theorem length_filter_partition {α : Type} (p : α → Bool) (l : List α) :
    (l.filter p).length + (l.filter (fun a => !p a)).length = l.length := by
  induction l with
  | nil => rfl
  | cons a t ih =>
    by_cases h : p a <;> simp [List.filter_cons, h] <;> omega

/-- Appending below the soft cap never evicts: the stream is exactly the
accumulated history. -/
theorem foldl_append_below_cap (init : EventStream) (h : List Event)
    (hlen : init.events.length + h.length ≤ init.max_events) :
    (h.foldl EventStream.append init).events = init.events ++ h := by
  induction h generalizing init with
  | nil => simp
  | cons e t ih =>
    simp only [List.foldl_cons]
    have happ : init.append e = { init with events := init.events ++ [e] } := by
      unfold EventStream.append
      rw [if_neg]
      simp only [List.length_append, List.length_cons, List.length_nil] at hlen ⊢
      omega
    rw [happ]
    have := ih { init with events := init.events ++ [e] }
      (by simp only [List.length_append, List.length_cons, List.length_nil] at hlen ⊢; omega)
    simpa [List.append_assoc] using this

/-! ### C9 -/

/-- C9: For any two event logs built by identical append histories (same
events in the same order, with identical timestamps and payloads),
`serialize()` produces byte-identical output — the encoding (sorted keys,
minimal separators) is a pure function of the event list, and below the soft
cap the event list is exactly the history. -/
theorem claim_C9_serialize_stable (h₁ h₂ : List Event) (heq : h₁ = h₂) :
    (buildStream h₁).serialize = (buildStream h₂).serialize ∧
    (h₁.length ≤ 1000 → (buildStream h₁).events = h₁) := by
  subst heq
  refine ⟨rfl, fun hlen => ?_⟩
  have := foldl_append_below_cap { events := [], max_events := 1000 } h₁ (by simpa using hlen)
  simpa [buildStream] using this

/-- Witness for C9 at a concrete one-event history. -/
theorem claim_C9_witness :
    (buildStream [evHi]).serialize = (buildStream [evHi]).serialize ∧
    (buildStream [evHi]).events = [evHi] :=
  ⟨(claim_C9_serialize_stable [evHi] [evHi] rfl).1,
   (claim_C9_serialize_stable [evHi] [evHi] rfl).2 (by decide)⟩

/-! ### C10 -/

/-- C10: event ids are not injective in the payload — `planEvA` and
`planEvB` share timestamp, plan id, title and step count but differ in step
statuses, current index and complete flag, yet their generated ids coincide,
because the Plan content hash covers only plan id, title and step count. -/
theorem claim_C10_id_not_injective :
    planEvA.etype = EventType.plan ∧ planEvB.etype = EventType.plan ∧
    planEvA.ts = planEvB.ts ∧ planEvA.planId = planEvB.planId ∧
    planEvA.planTitle = planEvB.planTitle ∧
    planEvA.planSteps.length = planEvB.planSteps.length ∧
    planEvA.planStatuses ≠ planEvB.planStatuses ∧
    planEvA.planIndex ≠ planEvB.planIndex ∧
    planEvA.planComplete ≠ planEvB.planComplete ∧
    planEvA.genId = planEvB.genId := by
  refine ⟨rfl, rfl, rfl, rfl, rfl, rfl, by decide, by decide, by decide, ?_⟩
  show sha256hex16 planEvA.idContent = sha256hex16 planEvB.idContent
  exact congrArg sha256hex16 (by decide)

/-! ### C7 -/

/-- C7 counterexample: with `replan_on_error` set but no current plan, an
observation containing the lexeme "error" still yields `should_replan =
False`, contradicting the claimed iff. -/
theorem claim_C7_counterexample :
    plannerNoPlan.replan_on_error = true ∧
    strContains (pyLower "error") "error" = true ∧
    plannerNoPlan.shouldReplan "error" = false := by decide

/-- C7 amended: `should_replan(observation)` is true iff `replan_on_error` is
set AND a current plan exists AND the observation contains one of the failure
lexemes as a case-insensitive substring. -/
theorem claim_C7_amended (pl : PlannerM) (obs : String) :
    pl.shouldReplan obs =
      (pl.replan_on_error && pl.current_plan.isSome &&
        errorIndicators.any fun ind => strContains (pyLower obs) ind) := by
  cases hre : pl.replan_on_error <;> cases hcp : pl.current_plan <;>
    simp [PlannerM.shouldReplan, hre, hcp]

/-! ### Counterexamples for C1–C6, C8 -/

/-- C1 counterexample: masking a tool changes the prefix component returned
by `build_context` — the masked-tools block is emitted inside the prefix
region. -/
theorem claim_C1_counterexample :
    ((engineC1.maskTool "browser_use" "no GUI" []).buildContext [] true true true).preCtx ≠
      (engineC1.buildContext [] true true true).preCtx := by decide

/-- C2 counterexample: appending to a full stream reorders the survivors —
the preserved Plan event jumps in front of an older surviving Message event,
so the result is not a subsequence of the append history. -/
theorem claim_C2_counterexample :
    (strmC2.append (msgEv "t3" "m3")).events.map Event.contentHash =
      ["pl:T:1", "user:m1", "user:m3"] ∧
    (strmC2.events ++ [msgEv "t3" "m3"]).map Event.contentHash =
      ["user:m0", "user:m1", "pl:T:1", "user:m3"] ∧
    ¬ ((strmC2.append (msgEv "t3" "m3")).events.map Event.contentHash).Sublist
        ((strmC2.events ++ [msgEv "t3" "m3"]).map Event.contentHash) := by
  refine ⟨by decide, by decide, by decide⟩

/-- C3 counterexample: the Observation event appended by `act` carries the
full 10001-byte output, exceeding the default `max_observe = 10000` — the
truncation happens only after the event is appended. -/
theorem claim_C3_counterexample :
    (actObservationEvent "t0" "python_execute" "call_1" longOut).obsOutput = longOut ∧
    10000 < (actObservationEvent "t0" "python_execute" "call_1" longOut).obsOutput.length := by
  have hout : (actObservationEvent "t0" "python_execute" "call_1" longOut).obsOutput = longOut := rfl
  refine ⟨hout, ?_⟩
  rw [hout]
  have hlen : longOut.length = 10001 := by
    rw [show longOut.length = (List.replicate 10001 'a').length from rfl, List.length_replicate]
  omega

/-- C4 counterexample: `advance()` marks a Skipped (terminal) current step
Completed. -/
theorem claim_C4_counterexample :
    skipPlan.steps.map PlanStep.status = [StepStatus.skipped] ∧
    (skipPlan.advance).1.steps.map PlanStep.status = [StepStatus.completed] := by decide

/-- C5 counterexample: two enabled matching sources with equal priority come
back in registration order (`a` before `b`) even though `b` has the larger
`usage_count` — the claimed usage-count/id tie-break does not exist. -/
theorem claim_C5_counterexample :
    dsA.priority = dsB.priority ∧ dsA.usage_count < dsB.usage_count ∧
    dsA.matchesQuery "x" = true ∧ dsB.matchesQuery "x" = true ∧
    dsA.enabled = true ∧ dsB.enabled = true ∧
    (dsModAB.findRelevant "x" 3).map Datasource.id = ["a", "b"] := by decide

/-- C6 counterexample: with `update_frequency = 3` and a non-empty todo, the
prompt of step 1 — not a multiple of 3 — already contains the
`[CURRENT PROGRESS]` block (`think` injects it unconditionally). -/
theorem claim_C6_counterexample :
    ¬ (1 % 3 = 0) ∧
    strContains (runThink engineC6 "NEXT" 1).2.1 "[CURRENT PROGRESS]" = true := by
  exact ⟨by decide, by decide⟩

/-- C8 counterexample: from a freshly created two-step plan, a single
`update_step_status(1, IN_PROGRESS)` yields two InProgress steps. -/
theorem claim_C8_counterexample :
    ¬ (runPOps "p" "t" "o" ["a", "b"] [POp.update 1 StepStatus.in_progress ""]).countInProgress ≤ 1 := by
  decide

/-! ### C2 amended -/

/-- C2 amended: at exactly `max_events` events, the next append evicts exactly
one event — the oldest whose kind is neither Plan nor System — and the total
returns to `max_events`; but the survivors are reordered: all Plan and System
events first, then the remaining events, each group in chronological order
(chronological order across groups is not preserved, see the counterexample).
The hypothesis that fewer than `max_events` events are preserved rules out the
degenerate slice `other[-0:]`. -/
theorem claim_C2_amended (s : EventStream) (e : Event)
    (hlen : s.events.length = s.max_events)
    (hp : ((s.events ++ [e]).filter (fun x => x.isPreserved)).length < s.max_events) :
    (s.append e).events =
      (s.events ++ [e]).filter (fun x => x.isPreserved) ++
        ((s.events ++ [e]).filter (fun x => !x.isPreserved)).tail ∧
    (s.append e).events.length = s.max_events ∧
    1 ≤ ((s.events ++ [e]).filter (fun x => !x.isPreserved)).length := by
  have hes : (s.events ++ [e]).length = s.max_events + 1 := by
    simp [hlen]
  have hsplit := length_filter_partition (fun x : Event => x.isPreserved) (s.events ++ [e])
  rw [hes] at hsplit
  have hO1 : 1 ≤ ((s.events ++ [e]).filter (fun x => !x.isPreserved)).length := by omega
  have hcond : s.max_events < (s.events ++ [e]).length := by omega
  have happ : (s.append e).events =
      (s.events ++ [e]).filter (fun x => x.isPreserved) ++
        ((s.events ++ [e]).filter (fun x => !x.isPreserved)).tail := by
    simp only [EventStream.append, hcond, if_true]
    congr 1
    have hkpos : (0 : Int) <
        (s.max_events : Int) -
          (((s.events ++ [e]).filter (fun x => x.isPreserved)).length : Int) := by
      omega
    simp only [pyTailSlice, hkpos, if_true]
    have htn : ((s.max_events : Int) -
        (((s.events ++ [e]).filter (fun x => x.isPreserved)).length : Int)).toNat =
        s.max_events - ((s.events ++ [e]).filter (fun x => x.isPreserved)).length := by
      omega
    rw [htn,
      show ((s.events ++ [e]).filter (fun x => !x.isPreserved)).length -
          (s.max_events - ((s.events ++ [e]).filter (fun x => x.isPreserved)).length) = 1
        by omega,
      List.drop_one]
  refine ⟨happ, ?_, hO1⟩
  rw [happ]
  simp only [List.length_append, List.length_tail]
  omega

/-- Witness for C2 amended at the concrete capped stream. -/
theorem claim_C2_amended_witness :
    strmC2.events.length = strmC2.max_events ∧
    ((strmC2.events ++ [msgEv "t3" "m3"]).filter (fun x => x.isPreserved)).length <
      strmC2.max_events ∧
    ((strmC2.append (msgEv "t3" "m3")).events =
      (strmC2.events ++ [msgEv "t3" "m3"]).filter (fun x => x.isPreserved) ++
        ((strmC2.events ++ [msgEv "t3" "m3"]).filter (fun x => !x.isPreserved)).tail ∧
     (strmC2.append (msgEv "t3" "m3")).events.length = strmC2.max_events ∧
     1 ≤ ((strmC2.events ++ [msgEv "t3" "m3"]).filter (fun x => !x.isPreserved)).length) :=
  ⟨by decide, by decide, claim_C2_amended strmC2 (msgEv "t3" "m3") (by decide) (by decide)⟩

/-! ### C3 amended -/

/-- C3 amended: the Observation event appended by `act` carries the FULL tool
output — on failure (`result` begins with `Error:`) the `error` field holds
the full result and `output` is empty, on success `output` holds the full
result; the `max_observe` truncation applies only to the per-call result
string `act` returns (which is indeed at most `max_observe` characters). -/
theorem claim_C3_amended (ts tool cid result : String) (max_observe : Nat) :
    (pyStartsWith result "Error:" = true →
      (actObservationEvent ts tool cid result).obsError = some result ∧
      (actObservationEvent ts tool cid result).obsOutput = "") ∧
    (pyStartsWith result "Error:" = false →
      (actObservationEvent ts tool cid result).obsOutput = result ∧
      (actObservationEvent ts tool cid result).obsError = none) ∧
    (max_observe ≠ 0 → (actReturned max_observe result).length ≤ max_observe) := by
  refine ⟨fun herr => ?_, fun hok => ?_, fun hm => ?_⟩
  · simp [actObservationEvent, Event.obsError, Event.obsOutput, herr]
  · simp [actObservationEvent, Event.obsError, Event.obsOutput, hok]
  · unfold actReturned
    rw [if_neg hm]
    show (String.mk (result.data.take max_observe)).length ≤ max_observe
    have : (String.mk (result.data.take max_observe)).length =
        (result.data.take max_observe).length := rfl
    rw [this]
    exact List.length_take_le max_observe result.data

/-- Witness for C3 amended: a failing result, a succeeding result, and a
truncated return value. -/
theorem claim_C3_amended_witness :
    ((actObservationEvent "t" "x" "c" "Error: y").obsError = some "Error: y" ∧
     (actObservationEvent "t" "x" "c" "Error: y").obsOutput = "") ∧
    ((actObservationEvent "t" "x" "c" "fine").obsOutput = "fine" ∧
     (actObservationEvent "t" "x" "c" "fine").obsError = none) ∧
    (actReturned 3 "abcdef").length ≤ 3 :=
  ⟨(claim_C3_amended "t" "x" "c" "Error: y" 5).1 (by decide),
   (claim_C3_amended "t" "x" "c" "fine" 5).2.1 (by decide),
   (claim_C3_amended "t" "x" "c" "abcdef" 3).2.2 (by decide)⟩

/-! ### C4 amended -/

/-- C4 amended: `advance()` marks the current step Completed whenever its
status is not already Completed — including a Skipped or Blocked (even
terminal) current step, see the counterexample — increments `current_index`,
sets the next step InProgress and returns it, or returns None with
`complete = true` when the plan is exhausted; for a plan with zero steps it
returns None and sets the complete flag. -/
theorem claim_C4_amended (p : Plan) :
    (p.advance).1.current_step_index = p.current_step_index + 1 ∧
    (p.current_step_index < p.steps.length →
      ∃ st, (p.advance).1.steps[p.current_step_index]? = some st ∧
        st.status = StepStatus.completed) ∧
    (p.steps.length ≤ p.current_step_index + 1 →
      (p.advance).2 = none ∧ (p.advance).1.is_complete = true) ∧
    (p.current_step_index + 1 < p.steps.length →
      ∃ st, (p.advance).2 = some st ∧ st.status = StepStatus.in_progress ∧
        (p.advance).1.steps[p.current_step_index + 1]? = some st) ∧
    (p.steps = [] → (p.advance).2 = none ∧ (p.advance).1.is_complete = true) := by
  unfold Plan.advance
  cases h1 : p.steps[p.current_step_index]? with
  | none =>
    have hge : p.steps.length ≤ p.current_step_index := by
      by_contra hc
      rw [(List.getElem?_eq_some_getElem_iff p.steps p.current_step_index (by omega)).mpr
        trivial] at h1
      cases h1
    dsimp only
    have h2 : p.steps[p.current_step_index + 1]? = none :=
      List.getElem?_eq_none_iff.mpr (by omega)
    rw [h2]
    dsimp only
    exact ⟨rfl, fun hlt => absurd hlt (by omega), fun _ => ⟨rfl, rfl⟩,
      fun hlt2 => absurd hlt2 (by omega), fun _ => ⟨rfl, rfl⟩⟩
  | some cur =>
    have hlt : p.current_step_index < p.steps.length := by
      by_contra hc
      rw [List.getElem?_eq_none_iff.mpr (by omega)] at h1
      cases h1
    dsimp only
    by_cases hst : cur.status = StepStatus.completed
    · rw [if_pos hst]
      cases h2 : p.steps[p.current_step_index + 1]? with
      | none =>
        have hge2 : p.steps.length ≤ p.current_step_index + 1 := by
          by_contra hc
          rw [(List.getElem?_eq_some_getElem_iff p.steps (p.current_step_index + 1)
            (by omega)).mpr trivial] at h2
          cases h2
        dsimp only
        exact ⟨rfl, fun _ => ⟨cur, h1, hst⟩, fun _ => ⟨rfl, rfl⟩,
          fun hlt2 => absurd hlt2 (by omega), fun hnil => by rw [hnil] at hlt; cases hlt⟩
      | some nxt =>
        have hlt2 : p.current_step_index + 1 < p.steps.length := by
          by_contra hc
          rw [List.getElem?_eq_none_iff.mpr (by omega)] at h2
          cases h2
        dsimp only
        refine ⟨rfl, fun _ => ⟨cur, ?_, hst⟩, fun hge2 => absurd hlt2 (by omega),
          fun _ => ⟨_, rfl, rfl, ?_⟩, fun hnil => by rw [hnil] at hlt; cases hlt⟩
        · rw [List.getElem?_set_ne (by omega)]
          exact h1
        · exact List.getElem?_set_self (by simpa using hlt2)
    · rw [if_neg hst]
      dsimp only
      cases h2 : (p.steps.set p.current_step_index
          { cur with status := StepStatus.completed })[p.current_step_index + 1]? with
      | none =>
        have hge2 : p.steps.length ≤ p.current_step_index + 1 := by
          by_contra hc
          rw [(List.getElem?_eq_some_getElem_iff _ (p.current_step_index + 1)
            (by rw [List.length_set]; omega)).mpr trivial] at h2
          cases h2
        dsimp only
        refine ⟨rfl, fun _ => ⟨{ cur with status := StepStatus.completed },
            List.getElem?_set_self (by simpa using hlt), rfl⟩,
          fun _ => ⟨rfl, rfl⟩, fun hlt2 => absurd hlt2 (by omega),
          fun hnil => by rw [hnil] at hlt; cases hlt⟩
      | some nxt =>
        have hlt2 : p.current_step_index + 1 < p.steps.length := by
          by_contra hc
          rw [List.getElem?_eq_none_iff.mpr (by rw [List.length_set]; omega)] at h2
          cases h2
        dsimp only
        refine ⟨rfl, fun _ => ⟨{ cur with status := StepStatus.completed }, ?_, rfl⟩,
          fun hge2 => absurd hlt2 (by omega),
          fun _ => ⟨_, rfl, rfl, ?_⟩, fun hnil => by rw [hnil] at hlt; cases hlt⟩
        · rw [List.getElem?_set_ne (by omega)]
          exact List.getElem?_set_self (by simpa using hlt)
        · exact List.getElem?_set_self (by simpa using hlt2)

/-- Witness for C4 amended at a freshly created two-step plan and at the
empty plan. -/
theorem claim_C4_amended_witness :
    (∃ st, (c4plan.advance).1.steps[c4plan.current_step_index]? = some st ∧
      st.status = StepStatus.completed) ∧
    (∃ st, (c4plan.advance).2 = some st ∧ st.status = StepStatus.in_progress ∧
      (c4plan.advance).1.steps[c4plan.current_step_index + 1]? = some st) ∧
    ((emptyPlan.advance).2 = none ∧ (emptyPlan.advance).1.is_complete = true) :=
  ⟨(claim_C4_amended c4plan).2.1 (by decide),
   (claim_C4_amended c4plan).2.2.2.1 (by decide),
   (claim_C4_amended emptyPlan).2.2.2.2 (by decide)⟩

/-! ### C5 amended -/

theorem mem_insertDesc {x y : Datasource} : ∀ {l : List Datasource},
    y ∈ insertDesc x l ↔ y = x ∨ y ∈ l := by
  intro l
  induction l with
  | nil => simp [insertDesc]
  | cons a t ih =>
    by_cases h : a.priority ≤ x.priority <;> simp [insertDesc, h, ih]
    tauto

theorem length_insertDesc (x : Datasource) : ∀ (l : List Datasource),
    (insertDesc x l).length = l.length + 1 := by
  intro l
  induction l with
  | nil => rfl
  | cons a t ih =>
    by_cases h : a.priority ≤ x.priority <;> simp [insertDesc, h, ih]

theorem mem_sortByPriorityDesc {y : Datasource} : ∀ {l : List Datasource},
    y ∈ sortByPriorityDesc l ↔ y ∈ l := by
  intro l
  induction l with
  | nil => simp [sortByPriorityDesc]
  | cons a t ih =>
    simp only [sortByPriorityDesc, List.foldr_cons] at *
    rw [mem_insertDesc]
    simp [ih]

theorem length_sortByPriorityDesc : ∀ (l : List Datasource),
    (sortByPriorityDesc l).length = l.length := by
  intro l
  induction l with
  | nil => rfl
  | cons a t ih =>
    simp only [sortByPriorityDesc, List.foldr_cons] at *
    rw [length_insertDesc, ih, List.length_cons]

theorem pairwise_insertDesc {x : Datasource} : ∀ {l : List Datasource},
    l.Pairwise (fun a b => b.priority ≤ a.priority) →
    (insertDesc x l).Pairwise (fun a b => b.priority ≤ a.priority) := by
  intro l
  induction l with
  | nil => intro _; simp [insertDesc]
  | cons a t ih =>
    intro h
    rw [List.pairwise_cons] at h
    obtain ⟨ha2, ht⟩ := h
    by_cases hle : a.priority ≤ x.priority
    · rw [insertDesc, if_pos hle, List.pairwise_cons]
      refine ⟨?_, List.pairwise_cons.mpr ⟨ha2, ht⟩⟩
      intro b hb
      rcases List.mem_cons.mp hb with hb | hb
      · rw [hb]; exact hle
      · exact le_trans (ha2 b hb) hle
    · rw [insertDesc, if_neg hle, List.pairwise_cons]
      refine ⟨?_, ih ht⟩
      intro b hb
      rcases mem_insertDesc.mp hb with hb | hb
      · rw [hb]; omega
      · exact ha2 b hb

theorem pairwise_sortByPriorityDesc : ∀ (l : List Datasource),
    (sortByPriorityDesc l).Pairwise (fun a b => b.priority ≤ a.priority) := by
  intro l
  induction l with
  | nil => simp [sortByPriorityDesc]
  | cons a t ih =>
    simp only [sortByPriorityDesc, List.foldr_cons] at *
    exact pairwise_insertDesc ih

/-- C5 amended: `find_relevant` returns the enabled sources matching the
query (name bidirectionally, tag-in-query, query-in-endpoint-description,
case-insensitively), sorted by descending priority only — ties keep
registration order (stable sort), `usage_count` and `id` play no role, see
the counterexample — truncated to the first `limit` results; when the
matching set fits in `limit`, every enabled matching source is returned. -/
theorem claim_C5_amended (m : DatasourceModule) (q : String) (limit : Nat) :
    (m.findRelevant q limit).length ≤ limit ∧
    (∀ d ∈ m.findRelevant q limit, d.enabled = true ∧ d.matchesQuery q = true) ∧
    (m.findRelevant q limit).Pairwise (fun a b => b.priority ≤ a.priority) ∧
    (((m.sources.map Prod.snd).filter fun s => s.enabled && s.matchesQuery q).length ≤ limit →
      ∀ d ∈ m.sources.map Prod.snd, d.enabled = true → d.matchesQuery q = true →
        d ∈ m.findRelevant q limit) := by
  unfold DatasourceModule.findRelevant
  refine ⟨List.length_take_le limit _, ?_, ?_, ?_⟩
  · intro d hd
    have hd2 := List.mem_of_mem_take hd
    have hd3 := mem_sortByPriorityDesc.mp hd2
    have hf := List.mem_filter.mp hd3
    have hb := hf.2
    rw [Bool.and_eq_true] at hb
    exact ⟨hb.1, hb.2⟩
  · exact (pairwise_sortByPriorityDesc _).sublist (List.take_sublist limit _)
  · intro hlen d hd hen hmq
    have hmem : d ∈ (m.sources.map Prod.snd).filter (fun s => s.enabled && s.matchesQuery q) :=
      List.mem_filter.mpr ⟨hd, by rw [Bool.and_eq_true]; exact ⟨hen, hmq⟩⟩
    rw [List.take_of_length_le (by rw [length_sortByPriorityDesc]; exact hlen)]
    exact mem_sortByPriorityDesc.mpr hmem

/-- Witness for C5 amended at the two-source module. -/
theorem claim_C5_amended_witness :
    (dsModAB.findRelevant "x" 3).length ≤ 3 ∧ dsA ∈ dsModAB.findRelevant "x" 3 :=
  ⟨(claim_C5_amended dsModAB "x" 3).1,
   (claim_C5_amended dsModAB "x" 3).2.2.2 (by decide) dsA (by decide) (by decide) (by decide)⟩

/-! ### C1 amended -/

theorem maskTool_sysPre (e : ContextEngine) (tool reason : String) (conds : List String) :
    (e.maskTool tool reason conds).sysPre = e.sysPre := rfl

theorem maskedToolsContext_step_count (e : ContextEngine) (n : Nat) :
    ({ e with step_count := n }).maskedToolsContext = e.maskedToolsContext := rfl

theorem maskedToolsContext_maskTool_ne_empty (e : ContextEngine) (tool reason : String)
    (conds : List String) :
    (e.maskTool tool reason conds).maskedToolsContext ≠ "" := by
  have hmem : ToolMask.mk tool ToolState.masked reason conds 1 ∈
      ((e.maskTool tool reason conds).tool_masks.map Prod.snd) := by
    unfold ContextEngine.maskTool
    exact mem_map_snd_dictSet e.tool_masks tool _
  have hmf : ToolMask.mk tool ToolState.masked reason conds 1 ∈
      ((e.maskTool tool reason conds).tool_masks.map Prod.snd).filter
        (fun m => m.state == ToolState.masked) :=
    List.mem_filter.mpr ⟨hmem, rfl⟩
  have hne := List.ne_nil_of_mem hmf
  unfold ContextEngine.maskedToolsContext
  rw [if_neg (by simpa [List.isEmpty_iff] using hne)]
  obtain ⟨z, hz⟩ := pyJoin_cons_ex "\n" "[UNAVAILABLE TOOLS - Do not attempt to use:]"
    ((((e.maskTool tool reason conds).tool_masks.map Prod.snd).filter
      (fun m => m.state == ToolState.masked)).map (fun m =>
        let tn := m.tool_name
        let rs := if m.mask_reason ≠ "" then " (" ++ m.mask_reason ++ ")" else ""
        s!"- {tn}{rs}"))
  rw [hz]
  exact append_ne_empty_left _ _ (by decide)

/-- C1 amended: `mask_tool` leaves the stored stable prefix (`system_prefix`)
and its digest (`prefix_hash`) unchanged, but the prefix component returned by
`build_context` DOES change: with a non-empty system prefix it becomes the
system prefix, a blank line, then the masked-tools block — i.e. the block is
emitted inside the prefix region, not outside it. -/
theorem claim_C1_amended (e : ContextEngine) (tool reason : String) (conds : List String)
    (evs : List Json) (h : e.sysPre ≠ "") :
    (e.maskTool tool reason conds).sysPre = e.sysPre ∧
    (e.maskTool tool reason conds).preHash = e.preHash ∧
    (e.maskTool tool reason conds).maskedToolsContext ≠ "" ∧
    ((e.maskTool tool reason conds).buildContext evs true true true).preCtx =
      e.sysPre ++ "\n\n" ++ (e.maskTool tool reason conds).maskedToolsContext := by
  have hmk := maskedToolsContext_maskTool_ne_empty e tool reason conds
  refine ⟨rfl, rfl, hmk, ?_⟩
  unfold ContextEngine.buildContext
  dsimp only
  rw [maskedToolsContext_step_count, maskTool_sysPre]
  rw [if_pos rfl, if_pos hmk]
  rw [List.singleton_append, List.filter_cons, List.filter_cons, List.filter_nil,
    decide_eq_true h, decide_eq_true hmk]
  simp only [if_true]
  exact pyJoin_pair "\n\n" _ _

/-- Witness for C1 amended at a concrete engine with system prefix `SYS`. -/
theorem claim_C1_amended_witness :
    engineC1.sysPre ≠ "" ∧
    ((engineC1.maskTool "browser_use" "no GUI" []).buildContext [] true true true).preCtx =
      engineC1.sysPre ++ "\n\n" ++
        (engineC1.maskTool "browser_use" "no GUI" []).maskedToolsContext :=
  ⟨by decide, (claim_C1_amended engineC1 "browser_use" "no GUI" [] [] (by decide)).2.2.2⟩

/-! ### C6 amended -/

theorem recitationString_head (td : TodoRecitation) :
    ∃ z, td.recitationString = "[CURRENT PROGRESS]" ++ z := by
  unfold TodoRecitation.recitationString
  dsimp only
  exact pyJoin_cons_ex "\n" "[CURRENT PROGRESS]" _

theorem recitationString_ne_empty (td : TodoRecitation) : td.recitationString ≠ "" := by
  obtain ⟨z, hz⟩ := recitationString_head td
  rw [hz]
  exact append_ne_empty_left _ _ (by decide)

theorem thinkStep_char (e : ContextEngine) (orig : String)
    (hrec : e.recitation_enabled = true) (hmask : e.tool_masks = [])
    (herr : e.error_retention.errors = []) :
    (thinkStep e [] orig).2.1 = e.todo.recitationString ++ "\n\n" ++ orig ∧
    (thinkStep e [] orig).2.2 =
      (if ((e.step_count + 1 + 1) % e.todo.update_frequency == 0) = true
       then [e.todo.recitationString] else []) := by
  unfold thinkStep ContextEngine.buildContext ContextEngine.incrementStep
    ContextEngine.recitationContext ContextEngine.errorContext ContextEngine.shouldRecite
    ContextEngine.maskedToolsContext ErrorRetention.contextString
  dsimp only
  simp [hrec, hmask, herr, recitationString_ne_empty e.todo]


theorem thinkStep_engine (e : ContextEngine) (orig : String) :
    (thinkStep e [] orig).1 =
      { e with step_count := e.step_count + 1 + 1,
               context_version := e.context_version + 1 } := rfl

theorem runThink_engine (e0 : ContextEngine) (orig : String) : ∀ k,
    (runThink e0 orig k).1 =
      { e0 with step_count := e0.step_count + 2 * k,
                context_version := e0.context_version + k } := by
  intro k
  induction k with
  | zero => simp [runThink]
  | succ k ih =>
    show (thinkStep (runThink e0 orig k).1 [] orig).1 = _
    rw [ih, thinkStep_engine]
    congr 1

/-- C6 amended: with `update_frequency = 3`, recitation enabled, no masked
tools and no retained errors, EVERY think step's emitted prompt begins with
the `[CURRENT PROGRESS]` block (the injection in `think` is unconditional),
while the dynamic block list built by `build_context` contains the recitation
block exactly on think steps that are multiples of 3 (each think bumps
`step_count` twice, and `2k ≡ 0 (mod 3)` iff `k ≡ 0 (mod 3)`). -/
theorem claim_C6_amended (e0 : ContextEngine) (orig : String) (k : Nat)
    (hstep : e0.step_count = 0) (hfreq : e0.todo.update_frequency = 3)
    (hrec : e0.recitation_enabled = true) (hmask : e0.tool_masks = [])
    (herr : e0.error_retention.errors = []) (hk : 1 ≤ k) :
    (∃ rest, (runThink e0 orig k).2.1 = "[CURRENT PROGRESS]" ++ rest) ∧
    ((runThink e0 orig k).2.2 = if k % 3 = 0 then [e0.todo.recitationString] else []) := by
  obtain ⟨j, rfl⟩ : ∃ j, k = j + 1 := ⟨k - 1, by omega⟩
  have hs := runThink_engine e0 orig j
  have hthink : runThink e0 orig (j + 1) = thinkStep (runThink e0 orig j).1 [] orig := rfl
  rw [hthink, hs]
  have hchar := thinkStep_char
    { e0 with step_count := e0.step_count + 2 * j, context_version := e0.context_version + j }
    orig hrec hmask herr
  dsimp only at hchar
  rw [hchar.1, hchar.2]
  constructor
  · obtain ⟨z, hz⟩ := recitationString_head e0.todo
    exact ⟨z ++ "\n\n" ++ orig, by rw [hz]; simp [String.append_assoc]⟩
  · by_cases h3 : (j + 1) % 3 = 0
    · rw [if_pos h3, if_pos ?_]
      rw [hstep, hfreq]
      simp only [Nat.beq_eq_true_eq]
      omega
    · rw [if_neg h3, if_neg ?_]
      rw [hstep, hfreq]
      simp only [Nat.beq_eq_true_eq]
      omega

/-- Witness for C6 amended at the concrete fresh engine and step 3. -/
theorem claim_C6_amended_witness :
    (∃ rest, (runThink engineC6 "NEXT" 3).2.1 = "[CURRENT PROGRESS]" ++ rest) ∧
    ((runThink engineC6 "NEXT" 3).2.2 =
      if 3 % 3 = 0 then [engineC6.todo.recitationString] else []) :=
  claim_C6_amended engineC6 "NEXT" 3 rfl rfl rfl rfl rfl (by decide)

/-! ### C8 amended -/

theorem filter_inprog_le_one : ∀ (l : List PlanStep) (c : Nat),
    (∀ j s, l[j]? = some s → s.status = StepStatus.in_progress → j = c) →
    (l.filter fun s => s.status == StepStatus.in_progress).length ≤ 1 := by
  intro l
  induction l with
  | nil => intro c _; simp
  | cons a t ih =>
    intro c h
    by_cases ha : a.status = StepStatus.in_progress
    · have hc : 0 = c := h 0 a (by simp) ha
      have ht : t.filter (fun s => s.status == StepStatus.in_progress) = [] := by
        rw [List.filter_eq_nil_iff]
        intro x hx hxs
        obtain ⟨i, hi, he⟩ := List.getElem_of_mem hx
        have hq : t[i]? = some x := by
          rw [List.getElem?_eq_some_iff]; exact ⟨hi, he⟩
        have := h (i + 1) x (by simpa using hq) (by simpa using hxs)
        omega
      rw [List.filter_cons_of_pos (by simpa using ha), ht]
      simp
    · rw [List.filter_cons_of_neg (by simpa using ha)]
      refine ih (c - 1) ?_
      intro j s hj hs
      have := h (j + 1) s (by simpa using hj) hs
      omega

theorem countInProgress_le_one_of_invSingle {p : Plan} (h : invSingle p) :
    p.countInProgress ≤ 1 :=
  filter_inprog_le_one p.steps p.current_step_index h

theorem invSingle_parsedPlan (pid title objective : String) (descs : List String) :
    invSingle (parsedPlan pid title objective descs) := by
  intro j s hj hs
  unfold parsedPlan at hj ⊢
  dsimp only at hj ⊢
  revert hj
  cases hm : ((if descs.isEmpty then defaultStepDescs else descs).enum.map
      fun d => PlanStep.mk d.1 d.2 StepStatus.pending "" []) with
  | nil =>
    intro hj
    simp at hj
  | cons s0 rest =>
    intro hj
    cases j with
    | zero => rfl
    | succ j =>
      rw [List.getElem?_cons_succ] at hj
      have hmem : s ∈ rest := by
        have := List.getElem?_eq_some_iff.mp hj
        obtain ⟨hlt, he⟩ := this
        rw [← he]
        exact List.getElem_mem hlt
      have hmem2 : s ∈ (if descs.isEmpty then defaultStepDescs else descs).enum.map
          (fun d => PlanStep.mk d.1 d.2 StepStatus.pending "" []) := by
        rw [hm]
        exact List.mem_cons_of_mem s0 hmem
      obtain ⟨d, _, hd⟩ := List.mem_map.mp hmem2
      rw [← hd] at hs
      cases hs


theorem advance_index (p : Plan) :
    (p.advance).1.current_step_index = p.current_step_index + 1 := by
  unfold Plan.advance
  cases h1 : p.steps[p.current_step_index]? with
  | none =>
    dsimp only
    cases h2 : p.steps[p.current_step_index + 1]? <;> rfl
  | some cur =>
    dsimp only
    by_cases hst : cur.status = StepStatus.completed
    · rw [if_pos hst]
      cases h2 : p.steps[p.current_step_index + 1]? <;> rfl
    · rw [if_neg hst]
      dsimp only
      cases h2 : (p.steps.set p.current_step_index
          { cur with status := StepStatus.completed })[p.current_step_index + 1]? <;> rfl

theorem invSingle_advance {p : Plan} (h : invSingle p) : invSingle (p.advance).1 := by
  intro j s hj hs
  rw [advance_index]
  revert hj
  unfold Plan.advance
  cases h1 : p.steps[p.current_step_index]? with
  | none =>
    have hge : p.steps.length ≤ p.current_step_index := by
      by_contra hc
      rw [(List.getElem?_eq_some_getElem_iff p.steps p.current_step_index (by omega)).mpr
        trivial] at h1
      cases h1
    dsimp only
    cases h2 : p.steps[p.current_step_index + 1]? with
    | some nxt =>
      rw [List.getElem?_eq_none_iff.mpr (by omega)] at h2
      cases h2
    | none =>
      intro hj
      dsimp only at hj
      have hji := h j s hj hs
      have hjl := (List.getElem?_eq_some_iff.mp hj).1
      omega
  | some cur =>
    have hlt : p.current_step_index < p.steps.length := by
      by_contra hc
      rw [List.getElem?_eq_none_iff.mpr (by omega)] at h1
      cases h1
    dsimp only
    by_cases hst : cur.status = StepStatus.completed
    · rw [if_pos hst]
      cases h2 : p.steps[p.current_step_index + 1]? with
      | some nxt =>
        intro hj
        dsimp only at hj
        by_cases hji : j = p.current_step_index + 1
        · omega
        · rw [List.getElem?_set_ne (by omega)] at hj
          have hjc := h j s hj hs
          rw [hjc] at hj
          rw [h1] at hj
          have hsc : s = cur := by cases hj; rfl
          rw [hsc, hst] at hs
          cases hs
      | none =>
        intro hj
        dsimp only at hj
        have hjc := h j s hj hs
        rw [hjc, h1] at hj
        have hsc : s = cur := by cases hj; rfl
        rw [hsc, hst] at hs
        cases hs
    · rw [if_neg hst]
      dsimp only
      cases h2 : (p.steps.set p.current_step_index
          { cur with status := StepStatus.completed })[p.current_step_index + 1]? with
      | some nxt =>
        intro hj
        dsimp only at hj
        by_cases hji : j = p.current_step_index + 1
        · omega
        · rw [List.getElem?_set_ne (by omega)] at hj
          by_cases hji2 : j = p.current_step_index
          · rw [hji2, List.getElem?_set_self (by simpa using hlt)] at hj
            have hsc : s.status = StepStatus.completed := by cases hj; rfl
            rw [hsc] at hs
            cases hs
          · rw [List.getElem?_set_ne (by omega)] at hj
            have hjc := h j s hj hs
            omega
      | none =>
        intro hj
        dsimp only at hj
        by_cases hji2 : j = p.current_step_index
        · rw [hji2, List.getElem?_set_self (by simpa using hlt)] at hj
          have hsc : s.status = StepStatus.completed := by cases hj; rfl
          rw [hsc] at hs
          cases hs
        · rw [List.getElem?_set_ne (by omega)] at hj
          have hjc := h j s hj hs
          omega


theorem update_index (p : Plan) (i : Nat) (st : StepStatus) (notes : String) :
    (p.updateStepStatus i st notes).current_step_index = p.current_step_index := by
  unfold Plan.updateStepStatus
  cases h1 : p.steps[i]? <;> rfl

theorem invSingle_update {p : Plan} (h : invSingle p) (i : Nat) (st : StepStatus)
    (notes : String) (hst : st ≠ StepStatus.in_progress) :
    invSingle (p.updateStepStatus i st notes) := by
  intro j s hj hs
  rw [update_index]
  revert hj
  unfold Plan.updateStepStatus
  cases h1 : p.steps[i]? with
  | none => intro hj; exact h j s hj hs
  | some step =>
    have hlt : i < p.steps.length := (List.getElem?_eq_some_iff.mp h1).1
    intro hj
    dsimp only at hj
    by_cases hji : j = i
    · rw [hji, List.getElem?_set_self (by simpa using hlt)] at hj
      have hsc : s.status = st := by
        cases hj
        by_cases hn : notes ≠ "" <;> simp [hn]
      rw [hsc] at hs
      exact absurd hs hst
    · rw [List.getElem?_set_ne (by omega)] at hj
      exact h j s hj hs

theorem invSingle_applyPOp {p : Plan} (h : invSingle p) (op : POp)
    (hop : POp.allowedB op = true) : invSingle (applyPOp p op) := by
  cases op with
  | advance => exact invSingle_advance h
  | update i st notes =>
    refine invSingle_update h i st notes ?_
    intro hc
    rw [hc] at hop
    simp [POp.allowedB] at hop
  | replan pid title objective descs => exact invSingle_parsedPlan pid title objective descs

/-- C8 amended: at most one step is InProgress for every plan reachable from
`create_plan` via `advance_plan`, `replan`, and `update_step_status` calls
that do not write `IN_PROGRESS`; an `update_step_status(i, IN_PROGRESS)`
overwrites the status without clearing any other InProgress step and breaks
the invariant (see the counterexample). -/
theorem claim_C8_amended (pid title objective : String) (descs : List String) (ops : List POp)
    (hops : ∀ op ∈ ops, POp.allowedB op = true) :
    (runPOps pid title objective descs ops).countInProgress ≤ 1 := by
  refine countInProgress_le_one_of_invSingle ?_
  unfold runPOps
  have hgen : ∀ (l : List POp) (q : Plan), invSingle q →
      (∀ op ∈ l, POp.allowedB op = true) → invSingle (l.foldl applyPOp q) := by
    intro l
    induction l with
    | nil => intro q hq _; simpa using hq
    | cons op t ih =>
      intro q hq hall
      simp only [List.foldl_cons]
      exact ih (applyPOp q op) (invSingle_applyPOp hq op (hall op (by simp)))
        (fun o ho => hall o (by simp [ho]))
  exact hgen ops _ (invSingle_parsedPlan pid title objective descs) hops

/-- Witness for C8 amended at a concrete two-step plan and one advance. -/
theorem claim_C8_amended_witness :
    (∀ op ∈ [POp.advance], POp.allowedB op = true) ∧
    (runPOps "p" "t" "o" ["a", "b"] [POp.advance]).countInProgress ≤ 1 :=
  ⟨by decide, claim_C8_amended "p" "t" "o" ["a", "b"] [POp.advance] (by decide)⟩

end Spec2Proof
